import Mathlib

/-!
# Verification of the geospatial aggregation / risk-scoring core

Shallow embedding of the geospatial core of the repository:

* the NIBRS risk-score batch update in `scripts/load_nibrs_data_old.py`
  (SQL `UPDATE nibrs_crime_data SET overall_risk_score = ...`);
* the haversine distance functions in `src/utils/geo_analysis.py`
  (`GeospatialAnalyzer.calculate_distance`) and `scripts/analyze_venue_crime.py`
  (module-level `calculate_distance`);
* the proximity matcher `GeospatialAnalyzer.find_incidents_near_venue`;
* the grid binner `GeospatialAnalyzer.generate_heat_map_data`;
* the venue risk categorization in `scripts/analyze_venue_crime.py`.

Counters are natural numbers (crime counts), scores are rationals, and
coordinates are real numbers (the grid binner is stated over any linear
ordered field with a floor so that it can also be evaluated on rationals).
-/

/-! ## Risk scorer (`scripts/load_nibrs_data_old.py`, lines 385-409)

The SQL update:

```
SET overall_risk_score = CASE
    WHEN total_offenses > 0 THEN
        LEAST(
            (
                (murder_nonnegligent_manslaughter * 10.0) +
                (aggravated_assault * 5.0) +
                (rape * 5.0) +
                (robbery * 3.0) +
                (kidnapping_abduction * 8.0) +
                (human_trafficking_offenses * 10.0) +
                (drug_narcotic_offenses * 2.0) +
                (burglary * 0.5)
            ) / (total_offenses * 10.0) * 100,
            100
        )
    ELSE 0
END
```
-/

/-- One row of the `nibrs_crime_data` table, restricted to the columns read by
the risk-score update.  The loader fills these columns with non-negative
crime counts (`int(val)` of CSV count cells, defaulting to 0). -/
structure NibrsCrimeRecord where
  murder_nonnegligent_manslaughter : ℕ
  aggravated_assault : ℕ
  rape : ℕ
  robbery : ℕ
  kidnapping_abduction : ℕ
  human_trafficking_offenses : ℕ
  drug_narcotic_offenses : ℕ
  burglary : ℕ
  total_offenses : ℕ
  deriving DecidableEq, Repr

/-- The parenthesised numerator of the SQL risk-score expression. -/
def weighted_offense_sum (r : NibrsCrimeRecord) : ℚ :=
  (r.murder_nonnegligent_manslaughter : ℚ) * 10 +
  (r.aggravated_assault : ℚ) * 5 +
  (r.rape : ℚ) * 5 +
  (r.robbery : ℚ) * 3 +
  (r.kidnapping_abduction : ℚ) * 8 +
  (r.human_trafficking_offenses : ℚ) * 10 +
  (r.drug_narcotic_offenses : ℚ) * 2 +
  (r.burglary : ℚ) * (1/2)

/-- The `CASE` expression of the risk-score update: zero when
`total_offenses` is zero, otherwise the weighted sum divided by
`total_offenses * 10`, scaled to 100 and clamped above at 100 by `LEAST`. -/
def overall_risk_score (r : NibrsCrimeRecord) : ℚ :=
  if 0 < r.total_offenses then
    min (weighted_offense_sum r / ((r.total_offenses : ℚ) * 10) * 100) 100
  else 0

/-- The example record of the specification: homicide = 2, burglary = 4,
all other counters 0, `total_offenses` = 10. -/
def exampleRecord : NibrsCrimeRecord :=
  { murder_nonnegligent_manslaughter := 2
    aggravated_assault := 0
    rape := 0
    robbery := 0
    kidnapping_abduction := 0
    human_trafficking_offenses := 0
    drug_narcotic_offenses := 0
    burglary := 4
    total_offenses := 10 }

/-- C1: for every record with `total_offenses > 0` the overall risk score is
the weighted sum of the counters (murder x10, aggravated assault x5, rape x5,
robbery x3, kidnapping x8, human trafficking x10, drug/narcotic x2,
burglary x0.5) divided by `total_offenses * 10`, multiplied by 100 and
clamped above at 100; and the example record with homicide = 2, burglary = 4
and `total_offenses` = 10 scores exactly 22. -/
theorem overall_risk_score_formula :
    (∀ r : NibrsCrimeRecord, 0 < r.total_offenses →
      overall_risk_score r =
        min (((r.murder_nonnegligent_manslaughter : ℚ) * 10 +
              (r.aggravated_assault : ℚ) * 5 +
              (r.rape : ℚ) * 5 +
              (r.robbery : ℚ) * 3 +
              (r.kidnapping_abduction : ℚ) * 8 +
              (r.human_trafficking_offenses : ℚ) * 10 +
              (r.drug_narcotic_offenses : ℚ) * 2 +
              (r.burglary : ℚ) * (1/2)) / ((r.total_offenses : ℚ) * 10) * 100)
            100) ∧
    overall_risk_score exampleRecord = 22 := by
  constructor
  · intro r h
    rw [overall_risk_score, if_pos h, weighted_offense_sum]
  · norm_num [overall_risk_score, weighted_offense_sum, exampleRecord]

/-- Witness for C1: the general formula applied at the example record. -/
theorem overall_risk_score_formula_witness :
    0 < exampleRecord.total_offenses ∧
    overall_risk_score exampleRecord =
      min (((exampleRecord.murder_nonnegligent_manslaughter : ℚ) * 10 +
            (exampleRecord.aggravated_assault : ℚ) * 5 +
            (exampleRecord.rape : ℚ) * 5 +
            (exampleRecord.robbery : ℚ) * 3 +
            (exampleRecord.kidnapping_abduction : ℚ) * 8 +
            (exampleRecord.human_trafficking_offenses : ℚ) * 10 +
            (exampleRecord.drug_narcotic_offenses : ℚ) * 2 +
            (exampleRecord.burglary : ℚ) * (1/2)) /
            ((exampleRecord.total_offenses : ℚ) * 10) * 100)
          100 :=
  ⟨by decide, overall_risk_score_formula.1 exampleRecord (by decide)⟩

/-- C3: the risk score of every record lies in the closed interval [0, 100]. -/
theorem overall_risk_score_mem_Icc (r : NibrsCrimeRecord) :
    overall_risk_score r ∈ Set.Icc (0 : ℚ) 100 := by
  rw [Set.mem_Icc, overall_risk_score]
  split
  · refine ⟨le_min ?_ (by norm_num), min_le_right _ _⟩
    have hnum : 0 ≤ weighted_offense_sum r := by
      rw [weighted_offense_sum]; positivity
    positivity
  · norm_num

/-- C4: a record with `total_offenses = 0` gets score 0; the division by
`total_offenses * 10` sits only in the `0 < total_offenses` branch of
`overall_risk_score`, so it is never evaluated for such a record. -/
theorem overall_risk_score_of_total_offenses_eq_zero
    (r : NibrsCrimeRecord) (h : r.total_offenses = 0) :
    overall_risk_score r = 0 := by
  rw [overall_risk_score, if_neg]
  omega

/-- Witness for C4: the all-zero record scores 0. -/
theorem overall_risk_score_of_total_offenses_eq_zero_witness :
    (⟨0, 0, 0, 0, 0, 0, 0, 0, 0⟩ : NibrsCrimeRecord).total_offenses = 0 ∧
    overall_risk_score ⟨0, 0, 0, 0, 0, 0, 0, 0, 0⟩ = 0 :=
  ⟨rfl, overall_risk_score_of_total_offenses_eq_zero _ rfl⟩

/-! ## Haversine distance (`src/utils/geo_analysis.py`, lines 35-52 and
`scripts/analyze_venue_crime.py`, lines 28-45)

Both files implement the same formula; `geo_analysis.py` converts the
arguments to radians in lat-first order, `analyze_venue_crime.py` in
lon-first order.  `math.radians x = x * pi / 180`. -/

namespace GeoAnalysis

/-- The method `GeospatialAnalyzer.calculate_distance`: haversine distance in km. -/
noncomputable def calculate_distance (lat1 lon1 lat2 lon2 : ℝ) : ℝ :=
  let lat1r := lat1 * (Real.pi / 180)
  let lon1r := lon1 * (Real.pi / 180)
  let lat2r := lat2 * (Real.pi / 180)
  let lon2r := lon2 * (Real.pi / 180)
  let dlat := lat2r - lat1r
  let dlon := lon2r - lon1r
  let a := Real.sin (dlat / 2) ^ 2 +
    Real.cos lat1r * Real.cos lat2r * Real.sin (dlon / 2) ^ 2
  let c := 2 * Real.arcsin (Real.sqrt a)
  c * 6371

end GeoAnalysis

namespace AnalyzeVenueCrime

/-- Module-level `calculate_distance` of `analyze_venue_crime.py`: the same
haversine formula, radian conversion written lon-first. -/
noncomputable def calculate_distance (lat1 lon1 lat2 lon2 : ℝ) : ℝ :=
  let lon1r := lon1 * (Real.pi / 180)
  let lat1r := lat1 * (Real.pi / 180)
  let lon2r := lon2 * (Real.pi / 180)
  let lat2r := lat2 * (Real.pi / 180)
  let dlon := lon2r - lon1r
  let dlat := lat2r - lat1r
  let a := Real.sin (dlat / 2) ^ 2 +
    Real.cos lat1r * Real.cos lat2r * Real.sin (dlon / 2) ^ 2
  let c := 2 * Real.arcsin (Real.sqrt a)
  c * 6371

end AnalyzeVenueCrime

/-- C8: the distance function is symmetric in its two coordinate pairs. -/
theorem calculate_distance_symm (lat1 lon1 lat2 lon2 : ℝ) :
    GeoAnalysis.calculate_distance lat1 lon1 lat2 lon2 =
      GeoAnalysis.calculate_distance lat2 lon2 lat1 lon1 := by
  simp only [GeoAnalysis.calculate_distance]
  have h : ∀ x y : ℝ, Real.sin ((x - y) / 2) ^ 2 = Real.sin ((y - x) / 2) ^ 2 := by
    intro x y
    rw [show (x - y) / 2 = -((y - x) / 2) by ring, Real.sin_neg, neg_sq]
  rw [h (lat2 * (Real.pi / 180)) (lat1 * (Real.pi / 180)),
    h (lon2 * (Real.pi / 180)) (lon1 * (Real.pi / 180)),
    mul_comm (Real.cos (lat1 * (Real.pi / 180))) (Real.cos (lat2 * (Real.pi / 180)))]

/-- C9: the two duplicate haversine implementations agree on every input;
the differing order of the radian conversions does not matter. -/
theorem calculate_distance_agree (lat1 lon1 lat2 lon2 : ℝ) :
    GeoAnalysis.calculate_distance lat1 lon1 lat2 lon2 =
      AnalyzeVenueCrime.calculate_distance lat1 lon1 lat2 lon2 := rfl

/-! ## Data model for the proximity matcher and the grid binner

`WorldCupVenue` and `SmugglingIncident` keep the columns the aggregation
routines read.  Incident coordinates are nullable; the coordinate type of
an incident is a parameter so that the (trigonometry-free) grid binner can
be evaluated on rationals while the matcher instantiates it with the reals. -/

/-- A World Cup venue: a stored reference point. -/
structure WorldCupVenue where
  id : ℕ
  latitude : ℝ
  longitude : ℝ

/-- A smuggling incident record: nullable coordinates plus the casualty
counters read by the aggregation code. -/
structure SmugglingIncident (α : Type) where
  id : ℕ
  latitude : Option α
  longitude : Option α
  number_dead : Option ℤ
  number_missing : Option ℤ
  deriving DecidableEq, Repr

/-- The database filter `latitude IS NOT NULL AND longitude IS NOT NULL`:
the incidents that have both coordinates, each paired with them. -/
def incidentsWithCoords {α : Type} (incidents : List (SmugglingIncident α)) :
    List (SmugglingIncident α × α × α) :=
  incidents.filterMap fun i =>
    match i.latitude, i.longitude with
    | some la, some lo => some (i, la, lo)
    | _, _ => none

theorem mem_incidentsWithCoords {α : Type} {incidents : List (SmugglingIncident α)}
    {e : SmugglingIncident α × α × α} (h : e ∈ incidentsWithCoords incidents) :
    e.1 ∈ incidents ∧ e.1.latitude = some e.2.1 ∧ e.1.longitude = some e.2.2 := by
  obtain ⟨i, hi, hmap⟩ := List.mem_filterMap.mp h
  cases hla : i.latitude with
  | none => rw [hla] at hmap; simp at hmap
  | some la =>
    cases hlo : i.longitude with
    | none => rw [hla, hlo] at hmap; simp at hmap
    | some lo =>
      rw [hla, hlo] at hmap
      simp only [Option.some.injEq] at hmap
      subst hmap
      exact ⟨hi, hla, hlo⟩

/-- Python `round` with no digit argument: round to the nearest integer,
halves to the even neighbour. -/
def roundHalfEven {α : Type} [LinearOrderedField α] [FloorRing α] (x : α) : ℤ :=
  if Int.fract x = 1 / 2 then (if ⌊x⌋ % 2 = 0 then ⌊x⌋ else ⌊x⌋ + 1)
  else round x

/-- Python `round(x, 2)`: round to two decimal places. -/
noncomputable def round2 (x : ℝ) : ℝ :=
  (roundHalfEven (x * 100) : ℝ) / 100

theorem roundHalfEven_zero : roundHalfEven (0 : ℝ) = 0 := by
  rw [roundHalfEven, if_neg, round_zero]
  rw [Int.fract_zero]
  norm_num

theorem round2_zero : round2 0 = 0 := by
  rw [round2, zero_mul, roundHalfEven_zero]
  norm_num

namespace GeoAnalysis

/-! ## Proximity matcher (`src/utils/geo_analysis.py`, lines 54-100)

`find_incidents_near_venue` looks the venue up by primary key (empty result
when absent), walks the incidents that have coordinates, keeps those whose
haversine distance is at most the radius annotated with
`round(distance, 2)`, and finally sorts by the stored `distance_km` with
Python's stable sort (modelled by `List.mergeSort`). -/

/-- The loop body: incidents with coordinates within `radius_km` of the
venue, annotated with their rounded distance (`'distance_km'`). -/
noncomputable def nearbyIncidents (venue : WorldCupVenue)
    (incidents : List (SmugglingIncident ℝ)) (radius_km : ℝ) :
    List (SmugglingIncident ℝ × ℝ) :=
  (incidentsWithCoords incidents).filterMap fun e =>
    if calculate_distance venue.latitude venue.longitude e.2.1 e.2.2 ≤ radius_km
    then some (e.1, round2 (calculate_distance venue.latitude venue.longitude e.2.1 e.2.2))
    else none

/-- The sort key comparison of `nearby_incidents.sort(key=lambda x: x['distance_km'])`. -/
noncomputable def distLE (p q : SmugglingIncident ℝ × ℝ) : Bool :=
  decide (p.2 ≤ q.2)

/-- The method `GeospatialAnalyzer.find_incidents_near_venue`, with the
analyzer's venue and incident tables passed explicitly. -/
noncomputable def find_incidents_near_venue (venues : List WorldCupVenue)
    (incidents : List (SmugglingIncident ℝ)) (venue_id : ℕ) (radius_km : ℝ) :
    List (SmugglingIncident ℝ × ℝ) :=
  match venues.find? (fun v => v.id == venue_id) with
  | none => []
  | some venue => (nearbyIncidents venue incidents radius_km).mergeSort distLE

end GeoAnalysis

/-- C10: a `venue_id` matching no stored venue yields the empty list, for
every radius, rather than an error. -/
theorem find_incidents_near_venue_of_unknown_venue
    (venues : List WorldCupVenue) (incidents : List (SmugglingIncident ℝ))
    (venue_id : ℕ) (radius_km : ℝ)
    (h : ∀ v ∈ venues, v.id ≠ venue_id) :
    GeoAnalysis.find_incidents_near_venue venues incidents venue_id radius_km = [] := by
  have hnone : venues.find? (fun v => v.id == venue_id) = none :=
    List.find?_eq_none.mpr fun v hv => by simpa using h v hv
  unfold GeoAnalysis.find_incidents_near_venue
  rw [hnone]

/-- Witness for C10: an unknown id on a nonempty venue table. -/
theorem find_incidents_near_venue_of_unknown_venue_witness :
    (∀ v ∈ [(⟨1, 0, 0⟩ : WorldCupVenue)], v.id ≠ 2) ∧
    GeoAnalysis.find_incidents_near_venue [⟨1, 0, 0⟩] [] 2 50 = [] := by
  have h : ∀ v ∈ [(⟨1, 0, 0⟩ : WorldCupVenue)], v.id ≠ 2 := by
    intro v hv
    rw [List.mem_singleton] at hv
    subst hv
    decide
  exact ⟨h, find_incidents_near_venue_of_unknown_venue _ _ _ _ h⟩

/-! ## Radius zero and the haversine (claim C7) -/

/-- The haversine core is nonnegative. -/
theorem haversine_core_nonneg (x : ℝ) : 0 ≤ 2 * Real.arcsin (Real.sqrt x) * 6371 := by
  have h := Real.arcsin_nonneg.mpr (Real.sqrt_nonneg x)
  linarith

/-- The haversine distance is never negative. -/
theorem calculate_distance_nonneg (lat1 lon1 lat2 lon2 : ℝ) :
    0 ≤ GeoAnalysis.calculate_distance lat1 lon1 lat2 lon2 := by
  simp only [GeoAnalysis.calculate_distance]
  exact haversine_core_nonneg _

/-- The haversine distance between longitude 0 and longitude 360 on the
equator is 0 although the coordinates differ. -/
theorem calculate_distance_zero_lon360 :
    GeoAnalysis.calculate_distance 0 0 0 360 = 0 := by
  simp only [GeoAnalysis.calculate_distance]
  rw [show (0 : ℝ) * (Real.pi / 180) = 0 by ring,
    show ((360 : ℝ) * (Real.pi / 180) - 0) / 2 = Real.pi by ring]
  simp [Real.sin_pi]

/-- Venue with id 1 at the origin. -/
def venue0 : WorldCupVenue := ⟨1, 0, 0⟩

/-- Incident with coordinates (0, 360): a different coordinate pair that
denotes the same point of the sphere as the origin. -/
def incident360 : SmugglingIncident ℝ := ⟨7, some 0, some 360, none, none⟩

theorem nearbyIncidents_venue0_eval :
    GeoAnalysis.nearbyIncidents venue0 [incident360] 0 = [(incident360, 0)] := by
  have h : GeoAnalysis.calculate_distance venue0.latitude venue0.longitude 0 360 = 0 :=
    calculate_distance_zero_lon360
  unfold GeoAnalysis.nearbyIncidents
  simp [incidentsWithCoords, incident360, h, round2_zero]

/-- C7 counterexample: with radius 0 the matcher returns the incident at
(0, 360) for the venue at (0, 0), yet its coordinates are not the venue's. -/
theorem find_incidents_radius_zero_counterexample :
    GeoAnalysis.find_incidents_near_venue [venue0] [incident360] 1 0 =
      [(incident360, 0)] ∧
    ¬ (incident360.latitude = some venue0.latitude ∧
       incident360.longitude = some venue0.longitude) := by
  constructor
  · unfold GeoAnalysis.find_incidents_near_venue
    rw [show List.find? (fun v => v.id == 1) [venue0] = some venue0 from rfl]
    show (GeoAnalysis.nearbyIncidents venue0 [incident360] 0).mergeSort
        GeoAnalysis.distLE = [(incident360, 0)]
    rw [nearbyIncidents_venue0_eval]
    simp [List.mergeSort]
  · intro hcontra
    have := hcontra.2
    rw [incident360, venue0] at this
    simp only [Option.some.injEq] at this
    norm_num at this

/-- C7 amended: with radius 0 every returned incident is at haversine
distance exactly 0 from the venue (the same point of the sphere, though
possibly written with different coordinates). -/
theorem find_incidents_radius_zero_amended
    (venues : List WorldCupVenue) (incidents : List (SmugglingIncident ℝ))
    (venue_id : ℕ) (v : WorldCupVenue) (p : SmugglingIncident ℝ × ℝ)
    (hfind : venues.find? (fun x => x.id == venue_id) = some v)
    (hp : p ∈ GeoAnalysis.find_incidents_near_venue venues incidents venue_id 0) :
    ∃ la lo, p.1.latitude = some la ∧ p.1.longitude = some lo ∧
      GeoAnalysis.calculate_distance v.latitude v.longitude la lo = 0 := by
  unfold GeoAnalysis.find_incidents_near_venue at hp
  rw [hfind, List.mem_mergeSort] at hp
  unfold GeoAnalysis.nearbyIncidents at hp
  obtain ⟨e, he, hmap⟩ := List.mem_filterMap.mp hp
  by_cases hle :
      GeoAnalysis.calculate_distance v.latitude v.longitude e.2.1 e.2.2 ≤ 0
  · rw [if_pos hle] at hmap
    obtain ⟨hmem, hla, hlo⟩ := mem_incidentsWithCoords he
    obtain rfl : (e.1, round2 (GeoAnalysis.calculate_distance v.latitude
        v.longitude e.2.1 e.2.2)) = p := Option.some_injective _ hmap
    exact ⟨e.2.1, e.2.2, hla, hlo,
      le_antisymm hle (calculate_distance_nonneg _ _ _ _)⟩
  · rw [if_neg hle] at hmap
    simp at hmap

/-- Witness for the amended C7 at the concrete venue/incident above. -/
theorem find_incidents_radius_zero_amended_witness :
    [venue0].find? (fun x => x.id == 1) = some venue0 ∧
    (incident360, (0 : ℝ)) ∈
      GeoAnalysis.find_incidents_near_venue [venue0] [incident360] 1 0 ∧
    ∃ la lo, incident360.latitude = some la ∧ incident360.longitude = some lo ∧
      GeoAnalysis.calculate_distance venue0.latitude venue0.longitude la lo = 0 := by
  have hfind : [venue0].find? (fun x => x.id == 1) = some venue0 := rfl
  have hmem : (incident360, (0 : ℝ)) ∈
      GeoAnalysis.find_incidents_near_venue [venue0] [incident360] 1 0 := by
    unfold GeoAnalysis.find_incidents_near_venue
    rw [hfind]
    show (incident360, (0 : ℝ)) ∈
      (GeoAnalysis.nearbyIncidents venue0 [incident360] 0).mergeSort GeoAnalysis.distLE
    rw [nearbyIncidents_venue0_eval]
    simp [List.mergeSort]
  exact ⟨hfind, hmem,
    find_incidents_radius_zero_amended _ _ _ _ _ hfind hmem⟩

/-! ## Content, order and stability of the proximity matcher (claim C2) -/

theorem distLE_trans (a b c : SmugglingIncident ℝ × ℝ)
    (hab : GeoAnalysis.distLE a b) (hbc : GeoAnalysis.distLE b c) :
    GeoAnalysis.distLE a c := by
  simp only [GeoAnalysis.distLE, decide_eq_true_eq] at hab hbc ⊢
  exact le_trans hab hbc

theorem distLE_total (a b : SmugglingIncident ℝ × ℝ) :
    GeoAnalysis.distLE a b || GeoAnalysis.distLE b a := by
  simp only [GeoAnalysis.distLE, Bool.or_eq_true, decide_eq_true_eq]
  exact le_total _ _

theorem mem_incidentsWithCoords_iff {α : Type} {incidents : List (SmugglingIncident α)}
    {i : SmugglingIncident α} {la lo : α} :
    (i, la, lo) ∈ incidentsWithCoords incidents ↔
      i ∈ incidents ∧ i.latitude = some la ∧ i.longitude = some lo := by
  constructor
  · intro h
    exact mem_incidentsWithCoords h
  · rintro ⟨hi, hla, hlo⟩
    refine List.mem_filterMap.mpr ⟨i, hi, ?_⟩
    rw [hla, hlo]

theorem mem_nearbyIncidents_iff {venue : WorldCupVenue}
    {incidents : List (SmugglingIncident ℝ)} {radius_km : ℝ}
    {i : SmugglingIncident ℝ} {d : ℝ} :
    (i, d) ∈ GeoAnalysis.nearbyIncidents venue incidents radius_km ↔
      ∃ la lo, i ∈ incidents ∧ i.latitude = some la ∧ i.longitude = some lo ∧
        GeoAnalysis.calculate_distance venue.latitude venue.longitude la lo ≤ radius_km ∧
        d = round2 (GeoAnalysis.calculate_distance venue.latitude venue.longitude la lo) := by
  unfold GeoAnalysis.nearbyIncidents
  constructor
  · intro h
    obtain ⟨e, he, hmap⟩ := List.mem_filterMap.mp h
    by_cases hle : GeoAnalysis.calculate_distance venue.latitude venue.longitude
        e.2.1 e.2.2 ≤ radius_km
    · rw [if_pos hle] at hmap
      obtain ⟨hmem, hla, hlo⟩ := mem_incidentsWithCoords he
      obtain ⟨rfl, rfl⟩ : e.1 = i ∧ round2 (GeoAnalysis.calculate_distance
          venue.latitude venue.longitude e.2.1 e.2.2) = d := by
        have := Option.some_injective _ hmap
        exact ⟨congrArg Prod.fst this, congrArg Prod.snd this⟩
      exact ⟨e.2.1, e.2.2, hmem, hla, hlo, hle, rfl⟩
    · rw [if_neg hle] at hmap
      simp at hmap
  · rintro ⟨la, lo, hi, hla, hlo, hle, rfl⟩
    refine List.mem_filterMap.mpr ⟨(i, la, lo), ?_, ?_⟩
    · exact mem_incidentsWithCoords_iff.mpr ⟨hi, hla, hlo⟩
    · rw [if_pos hle]

/-- C2 amended: when the venue lookup succeeds, the matcher returns exactly
the incidents with non-null coordinates whose haversine distance to the
venue is at most the radius, each annotated with its distance rounded to two
decimal places; the list ascends in this rounded distance, and any two
entries whose rounded distances are ordered (in particular, equal) keep
their original relative order. -/
theorem find_incidents_near_venue_characterization
    (venues : List WorldCupVenue) (incidents : List (SmugglingIncident ℝ))
    (venue_id : ℕ) (radius_km : ℝ) (v : WorldCupVenue)
    (hfind : venues.find? (fun x => x.id == venue_id) = some v) :
    (∀ (i : SmugglingIncident ℝ) (d : ℝ),
      (i, d) ∈ GeoAnalysis.find_incidents_near_venue venues incidents venue_id radius_km ↔
        ∃ la lo, i ∈ incidents ∧ i.latitude = some la ∧ i.longitude = some lo ∧
          GeoAnalysis.calculate_distance v.latitude v.longitude la lo ≤ radius_km ∧
          d = round2 (GeoAnalysis.calculate_distance v.latitude v.longitude la lo)) ∧
    (GeoAnalysis.find_incidents_near_venue venues incidents venue_id radius_km).Perm
      (GeoAnalysis.nearbyIncidents v incidents radius_km) ∧
    (GeoAnalysis.find_incidents_near_venue venues incidents venue_id radius_km).Pairwise
      (fun p q => p.2 ≤ q.2) ∧
    (∀ a b : SmugglingIncident ℝ × ℝ, a.2 ≤ b.2 →
      List.Sublist [a, b] (GeoAnalysis.nearbyIncidents v incidents radius_km) →
      List.Sublist [a, b] (GeoAnalysis.find_incidents_near_venue venues incidents venue_id radius_km)) := by
  have hout : GeoAnalysis.find_incidents_near_venue venues incidents venue_id radius_km =
      (GeoAnalysis.nearbyIncidents v incidents radius_km).mergeSort GeoAnalysis.distLE := by
    unfold GeoAnalysis.find_incidents_near_venue
    rw [hfind]
  rw [hout]
  refine ⟨?_, List.mergeSort_perm _ _, ?_, ?_⟩
  · intro i d
    rw [List.mem_mergeSort]
    exact mem_nearbyIncidents_iff
  · exact (List.sorted_mergeSort distLE_trans distLE_total
      _).imp fun h => by simpa [GeoAnalysis.distLE] using h
  · intro a b hab hsub
    exact List.pair_sublist_mergeSort distLE_trans
      distLE_total (by simpa [GeoAnalysis.distLE] using hab) hsub

/-- Witness for the amended C2, at a concrete venue store and incident list
(the venue lookup hypothesis is discharged by computation). -/
theorem find_incidents_near_venue_characterization_witness :
    (∀ (i : SmugglingIncident ℝ) (d : ℝ),
      (i, d) ∈ GeoAnalysis.find_incidents_near_venue [venue0] [incident360] 1 0 ↔
        ∃ la lo, i ∈ [incident360] ∧ i.latitude = some la ∧ i.longitude = some lo ∧
          GeoAnalysis.calculate_distance venue0.latitude venue0.longitude la lo ≤ 0 ∧
          d = round2 (GeoAnalysis.calculate_distance venue0.latitude venue0.longitude la lo)) ∧
    (GeoAnalysis.find_incidents_near_venue [venue0] [incident360] 1 0).Perm
      (GeoAnalysis.nearbyIncidents venue0 [incident360] 0) ∧
    (GeoAnalysis.find_incidents_near_venue [venue0] [incident360] 1 0).Pairwise
      (fun p q => p.2 ≤ q.2) ∧
    (∀ a b : SmugglingIncident ℝ × ℝ, a.2 ≤ b.2 →
      List.Sublist [a, b] (GeoAnalysis.nearbyIncidents venue0 [incident360] 0) →
      List.Sublist [a, b] (GeoAnalysis.find_incidents_near_venue [venue0] [incident360] 1 0)) :=
  find_incidents_near_venue_characterization [venue0] [incident360] 1 0 venue0 rfl

/-- Incident on the equator at longitude 180: its haversine distance from
the origin is the irrational number pi * 6371. -/
def incident180 : SmugglingIncident ℝ := ⟨3, some 0, some 180, none, none⟩

theorem calculate_distance_zero_lon180 :
    GeoAnalysis.calculate_distance 0 0 0 180 = Real.pi * 6371 := by
  simp only [GeoAnalysis.calculate_distance]
  rw [show (0 : ℝ) * (Real.pi / 180) = 0 by ring,
    show ((180 : ℝ) * (Real.pi / 180) - 0) / 2 = Real.pi / 2 by ring]
  simp [Real.sin_pi_div_two]
  ring

theorem floor_pi637100 : ⌊Real.pi * 637100⌋ = 2001508 := by
  rw [Int.floor_eq_iff]
  constructor
  · push_cast
    nlinarith [Real.pi_gt_d20]
  · push_cast
    nlinarith [Real.pi_lt_d20]

theorem round_pi637100 : round (Real.pi * 637100) = 2001509 := by
  rw [round_eq, Int.floor_eq_iff]
  constructor
  · push_cast
    nlinarith [Real.pi_gt_d20]
  · push_cast
    nlinarith [Real.pi_lt_d20]

theorem fract_pi637100_ne : Int.fract (Real.pi * 637100) ≠ 1 / 2 := by
  rw [Int.fract, floor_pi637100]
  intro h
  push_cast at h
  nlinarith [Real.pi_gt_d20]

/-- Rounding pi * 6371 to two decimals gives 20015.09. -/
theorem round2_pi_6371 : round2 (Real.pi * 6371) = 2001509 / 100 := by
  rw [round2, show Real.pi * 6371 * 100 = Real.pi * 637100 by ring,
    roundHalfEven, if_neg fract_pi637100_ne, round_pi637100]
  norm_num

theorem nearbyIncidents_venue0_incident180_eval :
    GeoAnalysis.nearbyIncidents venue0 [incident180] 30000 =
      [(incident180, 2001509 / 100)] := by
  have h : GeoAnalysis.calculate_distance venue0.latitude venue0.longitude 0 180 =
      Real.pi * 6371 := calculate_distance_zero_lon180
  have hle : Real.pi * 6371 ≤ 30000 := by nlinarith [Real.pi_lt_d20]
  unfold GeoAnalysis.nearbyIncidents
  simp [incidentsWithCoords, incident180, h, hle, round2_pi_6371]

/-- C2 counterexample: for the venue at the origin and the incident at
(0, 180), the matcher stores the rounded two-decimal value 20015.09 as
`distance_km`, which differs from the computed haversine distance pi * 6371;
so the returned list is not the incidents annotated with their computed
distances. -/
theorem find_incidents_rounded_distance_counterexample :
    GeoAnalysis.find_incidents_near_venue [venue0] [incident180] 1 30000 =
      [(incident180, 2001509 / 100)] ∧
    GeoAnalysis.find_incidents_near_venue [venue0] [incident180] 1 30000 ≠
      [(incident180,
        GeoAnalysis.calculate_distance venue0.latitude venue0.longitude 0 180)] := by
  have heval : GeoAnalysis.find_incidents_near_venue [venue0] [incident180] 1 30000 =
      [(incident180, 2001509 / 100)] := by
    unfold GeoAnalysis.find_incidents_near_venue
    rw [show List.find? (fun v => v.id == 1) [venue0] = some venue0 from rfl]
    show (GeoAnalysis.nearbyIncidents venue0 [incident180] 30000).mergeSort
        GeoAnalysis.distLE = [(incident180, 2001509 / 100)]
    rw [nearbyIncidents_venue0_incident180_eval]
    simp [List.mergeSort]
  have h : GeoAnalysis.calculate_distance venue0.latitude venue0.longitude 0 180 =
      Real.pi * 6371 := calculate_distance_zero_lon180
  refine ⟨heval, ?_⟩
  rw [heval, h]
  intro hcontra
  simp only [List.cons.injEq, Prod.mk.injEq, and_true, true_and] at hcontra
  nlinarith [Real.pi_lt_d20, hcontra]

/-! ## Venue risk categorization (`scripts/analyze_venue_crime.py`, lines 205-213)

```
if avg_risk >= 70 or homicides >= 50:
    analysis['risk_category'] = 'HIGH'
elif avg_risk >= 50 or homicides >= 20:
    analysis['risk_category'] = 'MEDIUM-HIGH'
elif avg_risk >= 30:
    analysis['risk_category'] = 'MEDIUM'
else:
    analysis['risk_category'] = 'LOW-MEDIUM'
```
-/

namespace AnalyzeVenueCrime

/-- The risk categorization of `analyze_venue_crime`, a function of the
average risk score and the summed homicide count of the nearby agencies. -/
def risk_category (avg_risk : ℚ) (homicides : ℕ) : String :=
  if 70 ≤ avg_risk ∨ 50 ≤ homicides then "HIGH"
  else if 50 ≤ avg_risk ∨ 20 ≤ homicides then "MEDIUM-HIGH"
  else if 30 ≤ avg_risk then "MEDIUM"
  else "LOW-MEDIUM"

end AnalyzeVenueCrime

/-- The categorization rule as the specification sentence states it:
determined solely by fixed score thresholds, with LOW as the bottom
category. -/
def claimedRiskCategory (score : ℚ) : String :=
  if 70 ≤ score then "HIGH"
  else if 50 ≤ score then "MEDIUM-HIGH"
  else if 30 ≤ score then "MEDIUM"
  else "LOW"

/-- C6 counterexample: with score 0 and 50 homicides the code assigns HIGH,
not the LOW the score thresholds dictate; and even with no homicides the
bottom category is LOW-MEDIUM, not LOW.  The category is therefore not
determined solely by the score thresholds of the claim. -/
theorem risk_category_counterexample :
    AnalyzeVenueCrime.risk_category 0 50 ≠ claimedRiskCategory 0 ∧
    AnalyzeVenueCrime.risk_category 0 0 ≠ claimedRiskCategory 0 := by decide

/-- C6 amended: the assigned category is determined by the fixed score
thresholds together with the homicide count: HIGH when score is at least 70
or homicides at least 50, MEDIUM-HIGH when score is at least 50 or
homicides at least 20, MEDIUM when score is at least 30, and LOW-MEDIUM
otherwise. -/
theorem risk_category_amended (avg_risk : ℚ) (homicides : ℕ) :
    (AnalyzeVenueCrime.risk_category avg_risk homicides = "HIGH" ↔
      70 ≤ avg_risk ∨ 50 ≤ homicides) ∧
    (AnalyzeVenueCrime.risk_category avg_risk homicides = "MEDIUM-HIGH" ↔
      ¬(70 ≤ avg_risk ∨ 50 ≤ homicides) ∧ (50 ≤ avg_risk ∨ 20 ≤ homicides)) ∧
    (AnalyzeVenueCrime.risk_category avg_risk homicides = "MEDIUM" ↔
      ¬(70 ≤ avg_risk ∨ 50 ≤ homicides) ∧ ¬(50 ≤ avg_risk ∨ 20 ≤ homicides) ∧
        30 ≤ avg_risk) ∧
    (AnalyzeVenueCrime.risk_category avg_risk homicides = "LOW-MEDIUM" ↔
      ¬(70 ≤ avg_risk ∨ 50 ≤ homicides) ∧ ¬(50 ≤ avg_risk ∨ 20 ≤ homicides) ∧
        ¬(30 ≤ avg_risk)) := by
  unfold AnalyzeVenueCrime.risk_category
  split_ifs with h1 h2 h3 <;> simp_all

/-! ## Grid binner (`src/utils/geo_analysis.py`, lines 137-186)

`generate_heat_map_data` walks the incidents that have coordinates, rounds
each coordinate to the nearest multiple of the grid size
(`round(coord / grid_size) * grid_size`), and accumulates per-cell counters
in an insertion-ordered dictionary; the cells are finally sorted by
incident count, descending and stable.  (The derived output fields
`intensity` and `total_casualties` of lines 176-181 are copies:
`intensity = incident_count` — also the sort key — and `total_casualties =
total_dead + total_missing`; the cell record carries the underlying
fields.) -/

/-- One grid cell of the heat-map dictionary. -/
structure HeatCell (α : Type) where
  latitude : α
  longitude : α
  incident_count : ℕ
  total_dead : ℤ
  total_missing : ℤ
  deriving DecidableEq, Repr

/-- The binning rule `round(coord / grid_size) * grid_size`. -/
def gridCoord {α : Type} [LinearOrderedField α] [FloorRing α]
    (grid_size coord : α) : α :=
  (roundHalfEven (coord / grid_size) : α) * grid_size

/-- The zero-initialised cell placed in the dictionary on first touch. -/
def newCell {α : Type} (grid_lat grid_lon : α) : HeatCell α :=
  { latitude := grid_lat
    longitude := grid_lon
    incident_count := 0
    total_dead := 0
    total_missing := 0 }

/-- The three `+=` updates of the loop body (`None` casualties count 0). -/
def bumpCell {α : Type} (c : HeatCell α) (i : SmugglingIncident α) : HeatCell α :=
  { c with
    incident_count := c.incident_count + 1
    total_dead := c.total_dead + i.number_dead.getD 0
    total_missing := c.total_missing + i.number_missing.getD 0 }

/-- One loop iteration on the insertion-ordered dictionary: update the cell
of `key` in place, creating it at the end when absent. -/
def gridInsert {α : Type} [LinearOrderedField α] (key : α × α)
    (i : SmugglingIncident α) :
    List ((α × α) × HeatCell α) → List ((α × α) × HeatCell α)
  | [] => [(key, bumpCell (newCell key.1 key.2) i)]
  | (k, c) :: rest =>
      if k = key then (k, bumpCell c i) :: rest
      else (k, c) :: gridInsert key i rest

/-- One iteration of the `for incident in incidents` loop. -/
def heatStep {α : Type} [LinearOrderedField α] [FloorRing α] (grid_size : α)
    (cells : List ((α × α) × HeatCell α)) (e : SmugglingIncident α × α × α) :
    List ((α × α) × HeatCell α) :=
  gridInsert (gridCoord grid_size e.2.1, gridCoord grid_size e.2.2) e.1 cells

/-- The `grid_data` dictionary after the loop. -/
def gridData {α : Type} [LinearOrderedField α] [FloorRing α]
    (incidents : List (SmugglingIncident α)) (grid_size : α) :
    List ((α × α) × HeatCell α) :=
  (incidentsWithCoords incidents).foldl (heatStep grid_size) []

namespace GeoAnalysis

/-- The method `GeospatialAnalyzer.generate_heat_map_data`: the cell values
of the dictionary, sorted by incident count descending (Python's stable
sort on `intensity`, reversed). -/
def generate_heat_map_data {α : Type} [LinearOrderedField α] [FloorRing α]
    (incidents : List (SmugglingIncident α)) (grid_size : α) :
    List (HeatCell α) :=
  ((gridData incidents grid_size).map Prod.snd).mergeSort
    (fun x y => decide (y.incident_count ≤ x.incident_count))

end GeoAnalysis

/-- Total incident count held by the cells of key `k` (0 or one cell once
keys are unique). -/
def cellCount {α : Type} [LinearOrderedField α]
    (cells : List ((α × α) × HeatCell α)) (k : α × α) : ℕ :=
  ((cells.filter fun kc => decide (kc.1 = k)).map
    fun kc => kc.2.incident_count).sum

theorem sum_counts_gridInsert {α : Type} [LinearOrderedField α]
    (key : α × α) (i : SmugglingIncident α)
    (cells : List ((α × α) × HeatCell α)) :
    ((gridInsert key i cells).map fun kc => kc.2.incident_count).sum =
      ((cells.map fun kc => kc.2.incident_count).sum) + 1 := by
  induction cells with
  | nil => simp [gridInsert, bumpCell, newCell]
  | cons hd tl ih =>
    obtain ⟨k, c⟩ := hd
    rw [gridInsert]
    by_cases h : k = key
    · simp only [if_pos h, List.map_cons, List.sum_cons, bumpCell]
      omega
    · simp only [if_neg h, List.map_cons, List.sum_cons, ih]
      omega

theorem sum_counts_foldl {α : Type} [LinearOrderedField α] [FloorRing α]
    (grid_size : α) (evs : List (SmugglingIncident α × α × α))
    (cells : List ((α × α) × HeatCell α)) :
    ((evs.foldl (heatStep grid_size) cells).map
        fun kc => kc.2.incident_count).sum =
      ((cells.map fun kc => kc.2.incident_count).sum) + evs.length := by
  induction evs generalizing cells with
  | nil => simp
  | cons e evs ih =>
    rw [List.foldl_cons, ih, heatStep, sum_counts_gridInsert]
    simp only [List.length_cons]
    omega

theorem cellCount_gridInsert {α : Type} [LinearOrderedField α]
    (key : α × α) (i : SmugglingIncident α)
    (cells : List ((α × α) × HeatCell α)) (k : α × α) :
    cellCount (gridInsert key i cells) k =
      cellCount cells k + (if key = k then 1 else 0) := by
  induction cells with
  | nil =>
    by_cases h : key = k
    · simp [cellCount, gridInsert, bumpCell, newCell, h]
    · simp [cellCount, gridInsert, h, Ne.symm h]
  | cons hd tl ih =>
    obtain ⟨k1, c⟩ := hd
    rw [gridInsert]
    by_cases h : k1 = key
    · subst h
      by_cases hk : k1 = k
      · simp [cellCount, hk, bumpCell, if_pos rfl]
        omega
      · simp [cellCount, hk, Ne.symm hk]
    · rw [if_neg h]
      by_cases hk : k1 = k
      · simp only [cellCount, List.filter_cons, decide_eq_true_eq, hk, if_pos,
          List.map_cons, List.sum_cons] at *
        simp only [ih]
        omega
      · simp only [cellCount, List.filter_cons, decide_eq_true_eq, hk] at *
        simp only [if_neg hk, ih]

theorem cellCount_foldl {α : Type} [LinearOrderedField α] [FloorRing α]
    (grid_size : α) (evs : List (SmugglingIncident α × α × α))
    (cells : List ((α × α) × HeatCell α)) (k : α × α) :
    cellCount (evs.foldl (heatStep grid_size) cells) k =
      cellCount cells k +
        evs.countP
          (fun e => decide
            ((gridCoord grid_size e.2.1, gridCoord grid_size e.2.2) = k)) := by
  induction evs generalizing cells with
  | nil => simp
  | cons e evs ih =>
    rw [List.foldl_cons, ih, heatStep, cellCount_gridInsert, List.countP_cons]
    by_cases h : (gridCoord grid_size e.2.1, gridCoord grid_size e.2.2) = k
    · simp [h]
      omega
    · simp [h]

theorem cell_key_consistent_gridInsert {α : Type} [LinearOrderedField α]
    {key : α × α} {i : SmugglingIncident α}
    {cells : List ((α × α) × HeatCell α)}
    (hcells : ∀ kc ∈ cells, ((kc.2.latitude, kc.2.longitude) : α × α) = kc.1) :
    ∀ kc ∈ gridInsert key i cells, ((kc.2.latitude, kc.2.longitude) : α × α) = kc.1 := by
  induction cells with
  | nil =>
    intro kc hkc
    simp only [gridInsert, List.mem_singleton] at hkc
    subst hkc
    rfl
  | cons hd tl ih =>
    obtain ⟨k, c⟩ := hd
    intro kc hkc
    rw [gridInsert] at hkc
    by_cases h : k = key
    · rw [if_pos h] at hkc
      rcases List.mem_cons.mp hkc with h1 | h1
      · subst h1
        exact hcells (k, c) (List.mem_cons_self _ _)
      · exact hcells kc (List.mem_cons_of_mem _ h1)
    · rw [if_neg h] at hkc
      rcases List.mem_cons.mp hkc with h1 | h1
      · subst h1
        exact hcells (k, c) (List.mem_cons_self _ _)
      · exact ih (fun kc h2 => hcells kc (List.mem_cons_of_mem _ h2)) kc h1

theorem cell_key_consistent_foldl {α : Type} [LinearOrderedField α] [FloorRing α]
    (grid_size : α) (evs : List (SmugglingIncident α × α × α))
    (cells : List ((α × α) × HeatCell α))
    (hcells : ∀ kc ∈ cells, ((kc.2.latitude, kc.2.longitude) : α × α) = kc.1) :
    ∀ kc ∈ evs.foldl (heatStep grid_size) cells,
      ((kc.2.latitude, kc.2.longitude) : α × α) = kc.1 := by
  induction evs generalizing cells with
  | nil => exact hcells
  | cons e evs ih =>
    rw [List.foldl_cons]
    exact ih _ (cell_key_consistent_gridInsert hcells)

theorem keys_gridInsert {α : Type} [LinearOrderedField α]
    (key : α × α) (i : SmugglingIncident α)
    (cells : List ((α × α) × HeatCell α)) :
    (gridInsert key i cells).map Prod.fst =
      if key ∈ cells.map Prod.fst then cells.map Prod.fst
      else cells.map Prod.fst ++ [key] := by
  induction cells with
  | nil => simp [gridInsert]
  | cons hd tl ih =>
    obtain ⟨k, c⟩ := hd
    rw [gridInsert]
    by_cases h : k = key
    · subst h
      simp
    · rw [if_neg h]
      by_cases hmem : key ∈ tl.map Prod.fst
      · simp [hmem, Ne.symm h, ih]
      · simp [hmem, Ne.symm h, ih]

theorem nodup_keys_gridInsert {α : Type} [LinearOrderedField α]
    {key : α × α} {i : SmugglingIncident α}
    {cells : List ((α × α) × HeatCell α)}
    (h : (cells.map Prod.fst).Nodup) :
    ((gridInsert key i cells).map Prod.fst).Nodup := by
  rw [keys_gridInsert]
  by_cases hmem : key ∈ cells.map Prod.fst
  · rwa [if_pos hmem]
  · rw [if_neg hmem]
    simp [List.nodup_append, h, hmem]

theorem nodup_keys_foldl {α : Type} [LinearOrderedField α] [FloorRing α]
    (grid_size : α) (evs : List (SmugglingIncident α × α × α))
    (cells : List ((α × α) × HeatCell α))
    (h : (cells.map Prod.fst).Nodup) :
    ((evs.foldl (heatStep grid_size) cells).map Prod.fst).Nodup := by
  induction evs generalizing cells with
  | nil => exact h
  | cons e evs ih =>
    rw [List.foldl_cons]
    exact ih _ (nodup_keys_gridInsert h)

theorem cellCount_eq_zero_of_not_mem {α : Type} [LinearOrderedField α]
    {cells : List ((α × α) × HeatCell α)} {k : α × α}
    (h : k ∉ cells.map Prod.fst) : cellCount cells k = 0 := by
  induction cells with
  | nil => rfl
  | cons hd tl ih =>
    simp only [List.map_cons, List.mem_cons, not_or] at h
    simp [cellCount, List.filter_cons, Ne.symm h.1] at *
    exact ih h.2

theorem cellCount_of_mem_nodup {α : Type} [LinearOrderedField α]
    {cells : List ((α × α) × HeatCell α)} {k : α × α} {c : HeatCell α}
    (hnd : (cells.map Prod.fst).Nodup) (hmem : (k, c) ∈ cells) :
    cellCount cells k = c.incident_count := by
  induction cells with
  | nil => simp at hmem
  | cons hd tl ih =>
    obtain ⟨k1, c1⟩ := hd
    simp only [List.map_cons, List.nodup_cons] at hnd
    rcases List.mem_cons.mp hmem with h1 | h1
    · cases h1
      simp only [cellCount, List.filter_cons, decide_eq_true_eq, eq_self_iff_true,
        if_true, List.map_cons, List.sum_cons]
      rw [show ((tl.filter fun kc => decide (kc.1 = k)).map
          fun kc => kc.2.incident_count).sum = cellCount tl k from rfl,
        cellCount_eq_zero_of_not_mem hnd.1]
      omega
    · have hne : k1 ≠ k := by
        intro hc
        subst hc
        exact hnd.1 (List.mem_map_of_mem Prod.fst h1)
      simp only [cellCount, List.filter_cons, decide_eq_true_eq, if_neg hne]
      exact ih hnd.2 h1

theorem exists_cell_of_cellCount_pos {α : Type} [LinearOrderedField α]
    {cells : List ((α × α) × HeatCell α)} {k : α × α}
    (h : 0 < cellCount cells k) : ∃ c, (k, c) ∈ cells := by
  induction cells with
  | nil => simp [cellCount] at h
  | cons hd tl ih =>
    obtain ⟨k1, c1⟩ := hd
    by_cases hk : k1 = k
    · subst hk
      exact ⟨c1, List.mem_cons_self _ _⟩
    · simp only [cellCount, List.filter_cons, decide_eq_true_eq, if_neg hk] at h
      obtain ⟨c, hc⟩ := ih h
      exact ⟨c, List.mem_cons_of_mem _ hc⟩

/-- C5: for every incident list and positive grid size, each incident with
coordinates is binned into the cell
`(round(lat / size) * size, round(lon / size) * size)`: every output cell
holds exactly the number of coordinate-bearing incidents that round to its
(latitude, longitude), every such incident has its cell in the output, and
the incident counts over all output cells sum to the number of incidents
with non-null coordinates. -/
theorem generate_heat_map_data_characterization {α : Type}
    [LinearOrderedField α] [FloorRing α]
    (incidents : List (SmugglingIncident α)) (grid_size : α)
    (hpos : 0 < grid_size) :
    ((GeoAnalysis.generate_heat_map_data incidents grid_size).map
        fun c => c.incident_count).sum = (incidentsWithCoords incidents).length ∧
    (∀ c ∈ GeoAnalysis.generate_heat_map_data incidents grid_size,
      c.incident_count = (incidentsWithCoords incidents).countP
        fun e => decide ((gridCoord grid_size e.2.1, gridCoord grid_size e.2.2) =
          (c.latitude, c.longitude))) ∧
    (∀ e ∈ incidentsWithCoords incidents,
      ∃ c ∈ GeoAnalysis.generate_heat_map_data incidents grid_size,
        c.latitude = gridCoord grid_size e.2.1 ∧
        c.longitude = gridCoord grid_size e.2.2) := by
  have hperm : (GeoAnalysis.generate_heat_map_data incidents grid_size).Perm
      ((gridData incidents grid_size).map Prod.snd) :=
    List.mergeSort_perm _ _
  have hnd : ((gridData incidents grid_size).map Prod.fst).Nodup :=
    nodup_keys_foldl grid_size (incidentsWithCoords incidents) [] (by simp)
  have hcons : ∀ kc ∈ gridData incidents grid_size,
      ((kc.2.latitude, kc.2.longitude) : α × α) = kc.1 :=
    cell_key_consistent_foldl grid_size (incidentsWithCoords incidents) []
      (by simp)
  refine ⟨?_, ?_, ?_⟩
  · have h1 : ((GeoAnalysis.generate_heat_map_data incidents grid_size).map
        fun c => c.incident_count).sum =
        (((gridData incidents grid_size).map Prod.snd).map
          fun c => c.incident_count).sum :=
      (hperm.map _).sum_eq
    rw [h1, List.map_map]
    rw [show ((gridData incidents grid_size).map
        ((fun c => c.incident_count) ∘ Prod.snd)).sum =
        ((gridData incidents grid_size).map fun kc => kc.2.incident_count).sum
        from rfl]
    rw [gridData, sum_counts_foldl]
    simp
  · intro c hc
    have hc2 : c ∈ (gridData incidents grid_size).map Prod.snd :=
      hperm.mem_iff.mp hc
    obtain ⟨kc, hkc, hsnd⟩ := List.mem_map.mp hc2
    obtain ⟨k, c1⟩ := kc
    cases hsnd
    have hkey : ((c1.latitude, c1.longitude) : α × α) = k := hcons (k, c1) hkc
    have hcount : cellCount (gridData incidents grid_size) k =
        c1.incident_count := cellCount_of_mem_nodup hnd hkc
    have hfold := cellCount_foldl grid_size (incidentsWithCoords incidents) [] k
    rw [show cellCount ([] : List ((α × α) × HeatCell α)) k = 0 from rfl,
      zero_add] at hfold
    rw [← hkey] at hcount hfold
    exact hcount.symm.trans hfold
  · intro e he
    have hfold := cellCount_foldl grid_size (incidentsWithCoords incidents) []
      (gridCoord grid_size e.2.1, gridCoord grid_size e.2.2)
    rw [show cellCount ([] : List ((α × α) × HeatCell α))
        (gridCoord grid_size e.2.1, gridCoord grid_size e.2.2) = 0 from rfl,
      zero_add] at hfold
    have hcpos : 0 < cellCount (gridData incidents grid_size)
        (gridCoord grid_size e.2.1, gridCoord grid_size e.2.2) := by
      rw [gridData, hfold]
      exact List.countP_pos_iff.mpr ⟨e, he, by simp⟩
    obtain ⟨c, hc⟩ := exists_cell_of_cellCount_pos hcpos
    have hkey := hcons _ hc
    exact ⟨c, hperm.mem_iff.mpr (List.mem_map_of_mem Prod.snd hc),
      congrArg Prod.fst hkey, congrArg Prod.snd hkey⟩

/-- Rational-coordinate incidents used to evaluate the grid binner. -/
def heatIncA : SmugglingIncident ℚ := ⟨1, some (2/5), some (3/5), some 2, none⟩

def heatIncB : SmugglingIncident ℚ := ⟨2, none, some 1, none, none⟩

def heatIncC : SmugglingIncident ℚ := ⟨3, some (2/5), some (3/5), none, some 1⟩

/-- Witness for C5 at three concrete rational incidents (one without
coordinates) and grid size 1. -/
theorem generate_heat_map_data_characterization_witness :
    (0 : ℚ) < 1 ∧
    (((GeoAnalysis.generate_heat_map_data [heatIncA, heatIncB, heatIncC] (1 : ℚ)).map
        fun c => c.incident_count).sum =
      (incidentsWithCoords [heatIncA, heatIncB, heatIncC]).length ∧
    (∀ c ∈ GeoAnalysis.generate_heat_map_data [heatIncA, heatIncB, heatIncC] (1 : ℚ),
      c.incident_count = (incidentsWithCoords [heatIncA, heatIncB, heatIncC]).countP
        fun e => decide ((gridCoord 1 e.2.1, gridCoord 1 e.2.2) =
          (c.latitude, c.longitude))) ∧
    (∀ e ∈ incidentsWithCoords [heatIncA, heatIncB, heatIncC],
      ∃ c ∈ GeoAnalysis.generate_heat_map_data [heatIncA, heatIncB, heatIncC] (1 : ℚ),
        c.latitude = gridCoord 1 e.2.1 ∧ c.longitude = gridCoord 1 e.2.2)) :=
  ⟨by norm_num,
    generate_heat_map_data_characterization [heatIncA, heatIncB, heatIncC] 1
      (by norm_num)⟩
